import Mathlib

/-!
Verification of the SonarQube orchestration plugin (src/util/sq.py, src/util/api.py,
src/util/exceptions.py) against its natural-language specification.

Python strings are modelled as Lean `String` or `List Char`; machine behaviour that the
claims depend on (posix path joining, str.strip/split, substring search) is embedded as
executable Lean functions translated from the CPython semantics actually exercised by
the source.  Fallible operations return `Option`; raised exceptions are modelled as
explicit result constructors.
-/

/-! ### Basic string-as-char-list utilities (CPython string semantics) -/

/-- Does the second list start with the first?  (Python str.startswith.) -/
def startsWithCh : List Char → List Char → Bool
  | [], _ => true
  | _ :: _, [] => false
  | a :: as, b :: bs => if a = b then startsWithCh as bs else false

/-- Does the second list end with the first?  (Python str.endswith.) -/
def endsWithCh (suf s : List Char) : Bool :=
  startsWithCh suf.reverse s.reverse

/-- Substring containment (Python `s.find(sub) != -1`). -/
def containsSub (needle : List Char) : List Char → Bool
  | [] => startsWithCh needle []
  | c :: rest => startsWithCh needle (c :: rest) || containsSub needle rest

/-- Python str.split(sep) for a one-character separator. -/
def splitOnChar (sep : Char) : List Char → List (List Char)
  | [] => [[]]
  | c :: rest =>
    match splitOnChar sep rest with
    | [] => if c = sep then [[], []] else [[c]]
    | h :: t => if c = sep then [] :: h :: t else (c :: h) :: t

/-- Python str.strip(): remove leading and trailing whitespace. -/
def pyStrip (cs : List Char) : List Char :=
  ((cs.dropWhile Char.isWhitespace).reverse.dropWhile Char.isWhitespace).reverse

/-- Python str.split() with no argument: words separated by runs of whitespace. -/
def pyWordsAcc (acc : List Char) : List Char → List (List Char)
  | [] => if acc = [] then [] else [acc.reverse]
  | c :: rest =>
    if c.isWhitespace then
      if acc = [] then pyWordsAcc [] rest else acc.reverse :: pyWordsAcc [] rest
    else pyWordsAcc (c :: acc) rest

/-- Lower-cased character list of a string (Python str.lower, ASCII fragment). -/
def lowerStr (s : String) : List Char := s.toList.map Char.toLower

/-- Python s.endswith(suffix) on `String`s. -/
def strEndsWith (s suffix : String) : Bool := endsWithCh suffix.toList s.toList

/-- Decimal value of an all-digit token (Python int(token)). -/
def tokVal (w : List Char) : Nat := w.foldl (fun a c => 10 * a + (c.toNat - 48)) 0

/-- Python token.isdigit() for tokens produced by str.split() (ASCII fragment). -/
def isDigitTok (w : List Char) : Bool := !w.isEmpty && w.all Char.isDigit

/-! ### C1 — issue path resolution (sq.py scan_proj, lines 113-120 and 199-210)

`pos = len(source_dir) + 1`; `path = issue["component"].split(":")[-1]`;
`path = os.path.join(build_cwd, path)[pos:]` with
`build_cwd = os.path.join(source_dir, build_cwd_env) if build_cwd_env else source_dir`.
`os.path.join` is embedded with its posix semantics (the tool runs the scan on posix). -/

/-- posix os.path.join(a, b) for two components. -/
def pyJoin (a b : List Char) : List Char :=
  if b.head? = some '/' then b
  else if a = [] then b
  else if a.getLast? = some '/' then a ++ b
  else a ++ '/' :: b

/-- `issue["component"].split(":")[-1]` (sq.py line 201). -/
def componentRelPath (component : List Char) : List Char :=
  (splitOnChar ':' component).getLastD []

/-- sq.py lines 113-114, 119-120 and 201-202: resolve a raw issue component against
the build working directory and drop the first `len(SOURCE_DIR) + 1` characters. -/
def resolveIssuePath (sourceDir : List Char) (buildCwdEnv : Option (List Char))
    (component : List Char) : List Char :=
  let rawPath := componentRelPath component
  let buildCwd :=
    match buildCwdEnv with
    | some bc => if bc = [] then sourceDir else pyJoin sourceDir bc
    | none => sourceDir
  (pyJoin buildCwd rawPath).drop (sourceDir.length + 1)

lemma startsWithCh_false_of_head_ne (pre s : List Char) (c : Char)
    (h : pre.head? = some c) (hs : s.head? ≠ some c) :
    startsWithCh pre s = false := by
  cases pre with
  | nil => simp at h
  | cons a as =>
    have ha : a = c := by simpa using h
    cases s with
    | nil => rfl
    | cons b bs =>
      have hb : b ≠ c := by simpa using hs
      have : ¬ a = b := by
        intro hab
        exact hb (by rw [← hab, ha])
      simp [startsWithCh, this]

lemma drop_append_cons (a : List Char) (c : Char) (b : List Char) :
    (a ++ c :: b).drop (a.length + 1) = b := by
  induction a with
  | nil => rfl
  | cons x xs ih => simp [ih]

lemma append_ne_nil_left (a : List Char) (c : Char) (b : List Char) :
    a ++ c :: b ≠ [] := by
  simp

/-- Claim C1: every Finding path produced by the issue extractor is obtained by joining
the raw component path onto the build working directory (itself under the absolute
source root) and dropping the first `len(SOURCE_DIR) + 1` characters; the result never
begins with the absolute source root, and with no BUILD_CWD override it is exactly the
component path relative to the source root. -/
theorem c1_finding_path_relative (sourceDir : List Char) (buildCwdEnv : Option (List Char))
    (component : List Char)
    (hAbs : sourceDir.head? = some '/')
    (hEnd : sourceDir.getLast? ≠ some '/')
    (hRel : (componentRelPath component).head? ≠ some '/')
    (hBc : ∀ bc, buildCwdEnv = some bc → bc.head? ≠ some '/') :
    startsWithCh sourceDir (resolveIssuePath sourceDir buildCwdEnv component) = false
    ∧ (buildCwdEnv = none →
        resolveIssuePath sourceDir buildCwdEnv component = componentRelPath component) := by
  have hsdNe : sourceDir ≠ [] := by
    intro h; rw [h] at hAbs; simp at hAbs
  have hstd : pyJoin sourceDir (componentRelPath component)
      = sourceDir ++ '/' :: componentRelPath component := by
    unfold pyJoin
    rw [if_neg hRel, if_neg hsdNe, if_neg hEnd]
  have hbase : (pyJoin sourceDir (componentRelPath component)).drop (sourceDir.length + 1)
      = componentRelPath component := by
    rw [hstd, drop_append_cons]
  cases buildCwdEnv with
  | none =>
    refine ⟨?_, fun _ => ?_⟩
    · show startsWithCh sourceDir
        ((pyJoin sourceDir (componentRelPath component)).drop (sourceDir.length + 1)) = false
      rw [hbase]
      exact startsWithCh_false_of_head_ne _ _ _ hAbs hRel
    · show (pyJoin sourceDir (componentRelPath component)).drop (sourceDir.length + 1)
        = componentRelPath component
      exact hbase
  | some bc =>
    refine ⟨?_, fun h => by cases h⟩
    by_cases hbcNil : bc = []
    · show startsWithCh sourceDir
        ((pyJoin (if bc = [] then sourceDir else pyJoin sourceDir bc)
          (componentRelPath component)).drop (sourceDir.length + 1)) = false
      rw [if_pos hbcNil, hbase]
      exact startsWithCh_false_of_head_ne _ _ _ hAbs hRel
    · have hbcHead : bc.head? ≠ some '/' := hBc bc rfl
      obtain ⟨c0, bc', rfl⟩ := List.exists_cons_of_ne_nil hbcNil
      have hc0 : c0 ≠ '/' := by simpa using hbcHead
      have hcwd : pyJoin sourceDir (c0 :: bc') = sourceDir ++ '/' :: c0 :: bc' := by
        unfold pyJoin
        rw [if_neg hbcHead, if_neg hsdNe, if_neg hEnd]
      show startsWithCh sourceDir
        ((pyJoin (if (c0 :: bc') = ([] : List Char) then sourceDir else pyJoin sourceDir (c0 :: bc'))
          (componentRelPath component)).drop (sourceDir.length + 1)) = false
      rw [if_neg hbcNil, hcwd]
      set raw := componentRelPath component with hraw
      have hne : sourceDir ++ '/' :: c0 :: bc' ≠ [] := append_ne_nil_left _ _ _
      by_cases hLast : (sourceDir ++ '/' :: c0 :: bc').getLast? = some '/'
      · have hj : pyJoin (sourceDir ++ '/' :: c0 :: bc') raw
            = sourceDir ++ '/' :: (c0 :: (bc' ++ raw)) := by
          unfold pyJoin
          rw [if_neg hRel, if_neg hne, if_pos hLast]
          simp
        rw [hj, drop_append_cons]
        exact startsWithCh_false_of_head_ne _ _ _ hAbs (by simpa using hc0)
      · have hj : pyJoin (sourceDir ++ '/' :: c0 :: bc') raw
            = sourceDir ++ '/' :: (c0 :: (bc' ++ '/' :: raw)) := by
          unfold pyJoin
          rw [if_neg hRel, if_neg hne, if_neg hLast]
          simp
        rw [hj, drop_append_cons]
        exact startsWithCh_false_of_head_ne _ _ _ hAbs (by simpa using hc0)

/-- Witness for C1 at a concrete source root, build directory and component. -/
theorem c1_finding_path_relative_witness :
    startsWithCh ("/data/repo".toList)
      (resolveIssuePath ("/data/repo".toList) (some ("sub".toList)) ("proj:a/b.py".toList))
      = false :=
  (c1_finding_path_relative ("/data/repo".toList) (some ("sub".toList)) ("proj:a/b.py".toList)
    (by decide) (by decide) (by decide)
    (fun bc h => by cases h; decide)).1

/-! ### C2 / C10 — quality profile assembly (sq.py _set_qualityprofiles, lines 642-734)

The XML profile document is represented as a structured value: the root holds a profile
name, a language, and a list of rule elements, each with a repository key, a rule key
and a list of key/value parameter pairs (spec section 6).  Per-rule override strings are
represented by their parsed key/value dictionaries: configuration-file parsing formats
are out of scope of the spec (section 1), so `RuleInfo.params` stands for the result of
`ConfigReader(cfg_string=rule_param).read("sq")`. -/

structure SQRule where
  repositoryKey : String
  key : String
  parameters : List (String × String)
deriving DecidableEq

structure RuleInfo where
  name : String
  params : List (String × String)
deriving DecidableEq

structure ProfileDoc where
  name : String
  lang : String
  rules : List SQRule
deriving DecidableEq

/-- sq.py line 701: `"%s:%s" % (rule.find("repositoryKey").text, rule.find("key").text)`. -/
def realName (r : SQRule) : String := r.repositoryKey ++ ":" ++ r.key

/-- sq.py lines 717-722: for each parameter element of the rule, if its key is in the
parsed override dictionary, replace the value text; otherwise leave it unchanged. -/
def applyRuleParams (dict : List (String × String)) (params : List (String × String)) :
    List (String × String) :=
  params.map (fun p =>
    match dict.lookup p.1 with
    | some v => (p.1, v)
    | none => p)

/-- sq.py lines 700-722 for one rule element: drop it when its repository-qualified name
is not in the allowed-rules list; otherwise apply the first matching per-rule parameter
override (no entry, or an empty parsed dictionary, leaves the rule untouched). -/
def processRule (rules : List String) (rule_list : List RuleInfo) (r : SQRule) :
    Option SQRule :=
  if realName r ∈ rules then
    match rule_list.find? (fun ri => ri.name == realName r) with
    | some ri =>
      if ri.params = [] then some r
      else some { r with parameters := applyRuleParams ri.params r.parameters }
    | none => some r
  else none

/-- sq.py line 694: `profile_path.lower().endswith("_SonarQube_Profile.xml".lower())`. -/
def isDefaultProfileName (path : String) : Bool :=
  endsWithCh (lowerStr "_SonarQube_Profile.xml") (lowerStr path)

/-- sq.py lines 692-726: a kept profile document is rewritten (rules filtered against the
allow-list, parameter overrides applied) only when its file name ends with the default
profile suffix; any other kept document is published unchanged. -/
def assembleDoc (rules : List String) (rule_list : List RuleInfo) (path : String)
    (doc : ProfileDoc) : ProfileDoc :=
  if isDefaultProfileName path then
    { doc with rules := doc.rules.filterMap (processRule rules rule_list) }
  else doc

def ruleR1 : SQRule := ⟨"java", "R1", []⟩
def ruleR2 : SQRule := ⟨"java", "R2", [("max", "5")]⟩
def ruleR3 : SQRule := ⟨"java", "R3", []⟩

def c2allowed : List String := ["java:R1", "java:R3"]

def c2docDefault : ProfileDoc := ⟨"tca_profile", "java", [ruleR1, ruleR2, ruleR3]⟩

def c2docUser : ProfileDoc := ⟨"my_profile", "java", [ruleR2]⟩

/-- Counterexample to C2 as stated: a kept user-supplied profile document whose file name
does not end with the default suffix `_SonarQube_Profile.xml` is published unfiltered, so
a rule outside allowedRules = {java:R1, java:R3} survives assembly. -/
theorem c2_rules_subset_counterexample :
    realName ruleR2 ∉ c2allowed
    ∧ ruleR2 ∈ (assembleDoc c2allowed [] "conf/java_rules.xml" c2docUser).rules := by
  decide

/-- Claim C2 (amended): after assembly, a kept profile document whose file name ends
(case-insensitively) with `_SonarQube_Profile.xml` only contains rules whose
repository-qualified key is in the allowed-rules set — in particular a default profile
with rules {R1,R2,R3} assembled against allowedRules = {R1,R3} contains exactly {R1,R3};
a kept document without that suffix is published unchanged. -/
theorem c2_rules_subset_amended (rules : List String) (rl : List RuleInfo) (path : String)
    (doc : ProfileDoc) :
    (isDefaultProfileName path = true →
      ∀ r ∈ (assembleDoc rules rl path doc).rules, realName r ∈ rules)
    ∧ (isDefaultProfileName path = false → assembleDoc rules rl path doc = doc)
    ∧ (assembleDoc c2allowed [] "Java_SonarQube_Profile.xml" c2docDefault).rules.map realName
        = c2allowed := by
  refine ⟨?_, ?_, by decide⟩
  · intro hdef r hr
    rw [assembleDoc, if_pos hdef] at hr
    simp only [List.mem_filterMap] at hr
    obtain ⟨a, _, ha⟩ := hr
    rw [processRule] at ha
    by_cases hmem : realName a ∈ rules
    · rw [if_pos hmem] at ha
      cases hfind : rl.find? (fun ri => ri.name == realName a) with
      | none =>
        rw [hfind] at ha
        cases ha
        exact hmem
      | some ri =>
        rw [hfind] at ha
        dsimp only at ha
        by_cases hp : ri.params = []
        · rw [if_pos hp] at ha
          cases ha
          exact hmem
        · rw [if_neg hp] at ha
          cases ha
          exact hmem
    · rw [if_neg hmem] at ha
      cases ha
  · intro hnot
    rw [assembleDoc, hnot]
    simp

/-- Witness for C2 at the concrete default-profile document of the claim. -/
theorem c2_rules_subset_witness : realName ruleR1 ∈ c2allowed :=
  (c2_rules_subset_amended c2allowed [] "Java_SonarQube_Profile.xml" c2docDefault).1
    (by decide) ruleR1 (by decide)

/-- Claim C10: applying a per-rule parameter override replaces only the values of
parameter elements already present whose key appears in the override dictionary; keys of
the document are preserved and nothing is added or removed; an override key matching no
parameter element has no effect; and a retained rule keeps its parameter key list. -/
theorem c10_param_override_frame (dict paramList : List (String × String)) :
    (applyRuleParams dict paramList).map Prod.fst = paramList.map Prod.fst
    ∧ (applyRuleParams dict paramList).length = paramList.length
    ∧ List.Forall₂ (fun p q =>
        (dict.lookup p.1 = none → q = p)
        ∧ ∀ v, dict.lookup p.1 = some v → q = (p.1, v)) paramList (applyRuleParams dict paramList)
    ∧ ((∀ p ∈ paramList, dict.lookup p.1 = none) → applyRuleParams dict paramList = paramList)
    ∧ (∀ rules rl r r2, processRule rules rl r = some r2 →
        r2.parameters.map Prod.fst = r.parameters.map Prod.fst) := by
  refine ⟨?_, ?_, ?_, ?_, ?_⟩
  · induction paramList with
    | nil => rfl
    | cons p ps ih =>
      simp only [applyRuleParams, List.map_cons] at ih ⊢
      cases h : dict.lookup p.1 <;> simp [h, ih]
  · simp [applyRuleParams]
  · induction paramList with
    | nil => exact List.Forall₂.nil
    | cons p ps ih =>
      refine List.Forall₂.cons ⟨?_, ?_⟩ ih
      · intro h; simp [h]
      · intro v h; simp [h]
  · intro hnone
    induction paramList with
    | nil => rfl
    | cons p ps ih =>
      simp only [applyRuleParams, List.map_cons]
      rw [hnone p (by simp)]
      have := ih (fun q hq => hnone q (by simp [hq]))
      simp only [applyRuleParams] at this
      simp [this]
  · intro rules rl r r2 h
    rw [processRule] at h
    by_cases hmem : realName r ∈ rules
    · rw [if_pos hmem] at h
      cases hfind : rl.find? (fun ri => ri.name == realName r) with
      | none => rw [hfind] at h; cases h; rfl
      | some ri =>
        rw [hfind] at h
        dsimp only at h
        by_cases hp : ri.params = []
        · rw [if_pos hp] at h; cases h; rfl
        · rw [if_neg hp] at h
          cases h
          show (applyRuleParams ri.params r.parameters).map Prod.fst = _
          induction r.parameters with
          | nil => rfl
          | cons p ps ih =>
            simp only [applyRuleParams, List.map_cons] at ih ⊢
            cases hl : ri.params.lookup p.1 <;> simp [hl, ih]
    · rw [if_neg hmem] at h
      cases h

/-- Witness for C10 at a concrete override dictionary and parameter list. -/
theorem c10_param_override_frame_witness :
    (applyRuleParams [("max", "10")] [("max", "3"), ("min", "1")]).map Prod.fst
      = [("max", "3"), ("min", "1")].map Prod.fst
    ∧ applyRuleParams [("threshold", "7")] [("max", "3")] = [("max", "3")] :=
  ⟨(c10_param_override_frame [("max", "10")] [("max", "3"), ("min", "1")]).1,
   (c10_param_override_frame [("threshold", "7")] [("max", "3")]).2.2.2.1 (by decide)⟩

/-! ### C3 — duplication-tagged issues (sq.py scan_proj, lines 212-228)

For a rule whose key ends with "DuplicatedBlocks", the extractor calls the block-detail
lookup (`duplications_show`) and appends one output entry per element of the returned
`duplications` list; each entry carries the parent issue's path/rule/msg/line/column and
one reference per `block` of that duplication, with the reference line taken from the
block's `from` field and the reference path from `files[block["_ref"]]["name"]`. -/

structure FindingRef where
  line : Nat
  column : Nat
  msg : String
  tag : Option String
  path : String
deriving DecidableEq

structure Finding where
  path : String
  rule : String
  msg : String
  line : Nat
  column : Nat
  refs : List FindingRef
deriving DecidableEq

/-- The parent issue's fields used when expanding duplication blocks. -/
structure IssueCore where
  path : String
  rule : String
  msg : String
  line : Nat
  column : Nat
deriving DecidableEq

structure DupBlock where
  fromLine : Nat
  size : Nat
  ref : String
deriving DecidableEq

structure Duplication where
  blocks : List DupBlock
deriving DecidableEq

structure DupResponse where
  duplications : List Duplication
  files : List (String × String)
deriving DecidableEq

/-- sq.py line 221: `"重复块(%d行-%d行)" % (block["from"], block["from"] + block["size"] - 1)`. -/
def dupMsg (b : DupBlock) : String :=
  "重复块(" ++ toString b.fromLine ++ "行-" ++ toString (b.fromLine + b.size - 1) ++ "行)"

/-- sq.py lines 216-225: the reference built from one duplicate block. -/
def blockRef (files : List (String × String)) (b : DupBlock) : FindingRef :=
  { line := b.fromLine, column := 0, msg := dupMsg b, tag := none,
    path := (files.lookup b.ref).getD "" }

/-- sq.py lines 213-228: one output entry is appended per duplication group, carrying the
parent issue's fields and one reference per block of that group. -/
def processDuplIssue (parent : IssueCore) (resp : DupResponse) : List Finding :=
  resp.duplications.map (fun d =>
    { path := parent.path, rule := parent.rule, msg := parent.msg,
      line := parent.line, column := parent.column,
      refs := d.blocks.map (blockRef resp.files) })

/-- Total number of duplicate blocks reported by the block-detail lookup. -/
def totalBlocks (resp : DupResponse) : Nat :=
  (resp.duplications.map (fun d => d.blocks.length)).sum

def parentEx : IssueCore :=
  ⟨"a.py", "common-py:DuplicatedBlocks", "2 duplicated blocks of code must be removed.", 5, 0⟩

/-- A block-detail response with one duplication group holding two duplicate blocks. -/
def dupRespEx : DupResponse :=
  ⟨[⟨[⟨5, 3, "1"⟩, ⟨20, 3, "2"⟩]⟩], [("1", "a.py"), ("2", "b.py")]⟩

/-- Counterexample to C3 as stated: when the block-detail lookup reports two duplicate
blocks (inside one duplication group), the extractor emits exactly one Finding entry
with two references — not two Finding entries. -/
theorem c3_dup_blocks_counterexample :
    totalBlocks dupRespEx = 2
    ∧ (processDuplIssue parentEx dupRespEx).length ≠ 2
    ∧ (processDuplIssue parentEx dupRespEx).length = 1 := by
  decide

/-- Claim C3 (amended): a duplication-tagged issue yields exactly one Finding per
duplication group reported by the block-detail lookup (so two groups yield two
Findings, while two blocks within one group yield one Finding with two references);
every emitted Finding carries the parent issue's path, rule and message, contains one
reference per block of its group, and every reference's line equals its block's start
line, with the reference path taken from the duplicate block's own file. -/
theorem c3_dup_blocks_amended (parent : IssueCore) (resp : DupResponse) :
    (processDuplIssue parent resp).length = resp.duplications.length
    ∧ (∀ f ∈ processDuplIssue parent resp,
        f.path = parent.path ∧ f.rule = parent.rule ∧ f.msg = parent.msg
        ∧ f.line = parent.line ∧ f.column = parent.column)
    ∧ List.Forall₂ (fun d f => f.refs = d.blocks.map (blockRef resp.files))
        resp.duplications (processDuplIssue parent resp)
    ∧ (∀ f ∈ processDuplIssue parent resp, ∀ r ∈ f.refs,
        ∃ b, (∃ d ∈ resp.duplications, b ∈ d.blocks)
          ∧ r.line = b.fromLine ∧ r.msg = dupMsg b
          ∧ r.path = ((resp.files.lookup b.ref).getD "")) := by
  refine ⟨by simp [processDuplIssue], ?_, ?_, ?_⟩
  · intro f hf
    simp only [processDuplIssue, List.mem_map] at hf
    obtain ⟨d, _, rfl⟩ := hf
    exact ⟨rfl, rfl, rfl, rfl, rfl⟩
  · rw [processDuplIssue, List.forall₂_map_right_iff]
    rw [List.forall₂_same]
    intro d _
    rfl
  · intro f hf r hr
    simp only [processDuplIssue, List.mem_map] at hf
    obtain ⟨d, hd, rfl⟩ := hf
    simp only [List.mem_map] at hr
    obtain ⟨b, hb, rfl⟩ := hr
    exact ⟨b, ⟨d, hd, hb⟩, rfl, rfl, rfl⟩

/-- The single Finding produced from `parentEx` and `dupRespEx`. -/
def dupFindingEx : Finding :=
  { path := "a.py", rule := "common-py:DuplicatedBlocks",
    msg := "2 duplicated blocks of code must be removed.", line := 5, column := 0,
    refs := [⟨5, 0, "重复块(5行-7行)", none, "a.py"⟩, ⟨20, 0, "重复块(20行-22行)", none, "b.py"⟩] }

/-- Witness for C3 at the concrete parent issue and two-block response. -/
theorem c3_dup_blocks_witness :
    (processDuplIssue parentEx dupRespEx).length = dupRespEx.duplications.length
    ∧ dupFindingEx.rule = parentEx.rule ∧ dupFindingEx.msg = parentEx.msg :=
  ⟨(c3_dup_blocks_amended parentEx dupRespEx).1,
   ((c3_dup_blocks_amended parentEx dupRespEx).2.1 dupFindingEx (by decide)).2.1,
   ((c3_dup_blocks_amended parentEx dupRespEx).2.1 dupFindingEx (by decide)).2.2.1⟩

/-! ### Server state, error taxonomy and the orchestrator error path
(sq.py __init__/_use_common_sonarqube/_raise_error; exceptions.py) -/

inductive SQModel
  | LOCAL
  | COMMON
deriving DecidableEq

/-- A settings user record (SQ_LOCAL_USER / SQ_COMMON_USER). -/
structure SQUser where
  url : String
  port : Nat
  base_path : String
  username : String
  password : String
  projectKey : String
deriving DecidableEq

/-- The mutable endpoint fields of the `SonarQube` object (sq.py lines 69-96). -/
structure SQState where
  model : SQModel
  base_url : String
  port : Nat
  base_path : String
  user : String
  password : String
  projectKey : String
  is_local_up : Bool
deriving DecidableEq

/-- sq.py lines 427-438 (_use_common_sonarqube): switch every endpoint field to the
shared-server settings, append the project id to the project key, and set the
owned-local-up flag. -/
def useCommonSonarqube (cu : SQUser) (project_id : String) (_st : SQState) : SQState :=
  { model := SQModel.COMMON, base_url := cu.url, port := cu.port,
    base_path := cu.base_path, user := cu.username, password := cu.password,
    projectKey := cu.projectKey ++ "_" ++ project_id, is_local_up := true }

/-- The task-level exception taxonomy of exceptions.py (lines 35-56), each constructor
carrying its human-readable message. -/
inductive TaskExc
  | compileTaskError (msg : String)
  | configError (msg : String)
  | analyzeTaskError (msg : String)
deriving DecidableEq

/-- The message carried by a task-level exception. -/
def excMsg : TaskExc → String
  | TaskExc.compileTaskError m => m
  | TaskExc.configError m => m
  | TaskExc.analyzeTaskError m => m

/-- sq.py lines 325-333 (_raise_error): tear the local server down exactly when the
model is LOCAL, then raise the exception class selected by `err_type`.  The first
component records whether teardown (`_kill_sonar`) was attempted. -/
def raiseError (st : SQState) (msg : String) (errType : Option String) : Bool × TaskExc :=
  ( if st.model = SQModel.LOCAL then true else false
  , match errType with
    | some t =>
      if t = "compile" then TaskExc.compileTaskError msg
      else if t = "config" then TaskExc.configError msg
      else TaskExc.analyzeTaskError msg
    | none => TaskExc.analyzeTaskError msg )

/-! ### C4 — task completion poller (sq.py _wait_until_task_succeed, lines 533-571) -/

/-- sq.py lines 536-537: the task id is the part after the `=` of the stripped fifth
line (`f.readlines()[4].strip().split("=")[-1]`) of the report handle; fewer than five
lines fail the read. -/
def extractTaskId : List String → Option String
  | _ :: _ :: _ :: _ :: l4 :: _ =>
      some (String.mk ((splitOnChar '=' (pyStrip l4.toList)).getLastD []))
  | _ => none

/-- The literal regex of sq.py line 554 (with re.I): text starting with
"load called twice for thread '", then any characters other than a newline, then
"' or state wasn't cleared last time it was used". -/
def loadTwicePat1 : List Char := ("load called twice for thread \x27").toList

def loadTwicePat2 : List Char := ("\x27 or state wasn\x27t cleared last time it was used").toList

/-- Scan for `loadTwicePat2` as a prefix at some position reachable without crossing a
newline (the `.*` of the pattern). -/
def findPat (pat : List Char) : List Char → Bool
  | [] => startsWithCh pat []
  | c :: rest => startsWithCh pat (c :: rest) || (if c = '\n' then false else findPat pat rest)

/-- sq.py lines 553-557: `re.match(pattern, msg, re.I)` for the load-called-twice
pattern: case-insensitive match anchored at the start of the message. -/
def matchesLoadTwice (msg : String) : Bool :=
  startsWithCh loadTwicePat1 (lowerStr msg)
    && findPat loadTwicePat2 ((lowerStr msg).drop loadTwicePat1.length)

/-- The failure classes distinguished by the task poller's FAILED branch. -/
inductive TaskErrClass
  | schedulerRestart
  | heapSpace
  | indexFailure
  | unclassified
deriving DecidableEq

/-- sq.py lines 552-567: classification of a FAILED task's server-supplied error
message. -/
def classifyFailure (errorMessage : String) : TaskErrClass :=
  if matchesLoadTwice errorMessage then TaskErrClass.schedulerRestart
  else if errorMessage = "Java heap space" then TaskErrClass.heapSpace
  else if errorMessage = "Unrecoverable indexation failures: 1 errors among 1 requests" then
    TaskErrClass.indexFailure
  else TaskErrClass.unclassified

/-- One compute-task query result (`res["task"]`). -/
structure CeTask where
  status : String
  errorMessage : String
deriving DecidableEq

inductive TaskWaitResult
  | completed
  | failed (cls : TaskErrClass)
  | timedOut
deriving DecidableEq

/-- sq.py lines 539-571: the polling loop over successive query results (`none` is a
query raising an exception, swallowed and retried); a FAILED status raises its
classified error, SUCCESS ends the loop, anything else retries; exhausting the queries
is the deadline timeout. -/
def waitUntilTaskSucceed : List (Option CeTask) → TaskWaitResult
  | [] => TaskWaitResult.timedOut
  | none :: rest => waitUntilTaskSucceed rest
  | some res :: rest =>
    if res.status = "FAILED" then TaskWaitResult.failed (classifyFailure res.errorMessage)
    else if res.status = "SUCCESS" then TaskWaitResult.completed
    else waitUntilTaskSucceed rest

/-- Claim C4: for a report handle whose fixed (fifth) identifier line reads
`ceTaskId=AX1`, the poller queries with identifier `AX1`; a terminal SUCCESS ends the
loop without raising; a terminal FAILED with message exactly "Java heap space" is
classified as heap exhaustion and raised as an AnalyzeTaskError. -/
theorem c4_task_poller (l0 l1 l2 l3 : String) (rest : List String) (st : SQState)
    (msg : String) :
    extractTaskId (l0 :: l1 :: l2 :: l3 :: "ceTaskId=AX1\n" :: rest) = some "AX1"
    ∧ waitUntilTaskSucceed [some ⟨"SUCCESS", ""⟩] = TaskWaitResult.completed
    ∧ waitUntilTaskSucceed [some ⟨"FAILED", "Java heap space"⟩]
        = TaskWaitResult.failed TaskErrClass.heapSpace
    ∧ classifyFailure "Java heap space" = TaskErrClass.heapSpace
    ∧ (raiseError st msg (some "analyze")).2 = TaskExc.analyzeTaskError msg := by
  refine ⟨by rfl, by decide, by decide, by decide, by rfl⟩

/-! ### C5 — transport classification and project creation
(api.py SQAPIHandler._request, lines 34-54; sq.py _wait_until_project_create,
lines 593-614) -/

/-- The transport-layer outcome of one HTTP response: pass-through or the exception
class raised by `_request` (exceptions.py: ValidationError and AuthError are both
ClientError subclasses). -/
inductive HttpOutcome
  | ok
  | validationError
  | authError
  | clientError
  | serverError
deriving DecidableEq

/-- api.py lines 39-54: status < 300 passes through; 400 raises ValidationError;
401/403 raise AuthError; any other status < 500 raises ClientError; the rest raise
ServerError. -/
def requestOutcome (status : Nat) : HttpOutcome :=
  if status < 300 then HttpOutcome.ok
  else if status = 400 then HttpOutcome.validationError
  else if status = 401 ∨ status = 403 then HttpOutcome.authError
  else if status < 500 then HttpOutcome.clientError
  else HttpOutcome.serverError

inductive CreateOutcome
  | created
  | retryLimitError
  | timedOut
  | uncaughtServerError
deriving DecidableEq

/-- sq.py lines 593-614: the project-creation loop over successive response statuses.
A pass-through or a ValidationError marks the project created; AuthError/ClientError
are caught (`except ClientError`) and retried; ServerError propagates uncaught.  After
each attempt, more than `retry_times = 5` attempts raise the retry-limit error — even
when the last attempt succeeded.  Exhausting the supplied responses is the deadline
timeout. -/
def createLoopAux : Nat → List Nat → CreateOutcome
  | _, [] => CreateOutcome.timedOut
  | cnt, s :: rest =>
    let c := cnt + 1
    match requestOutcome s with
    | HttpOutcome.serverError => CreateOutcome.uncaughtServerError
    | HttpOutcome.ok => if c > 5 then CreateOutcome.retryLimitError else CreateOutcome.created
    | HttpOutcome.validationError =>
      if c > 5 then CreateOutcome.retryLimitError else CreateOutcome.created
    | HttpOutcome.authError =>
      if c > 5 then CreateOutcome.retryLimitError else createLoopAux c rest
    | HttpOutcome.clientError =>
      if c > 5 then CreateOutcome.retryLimitError else createLoopAux c rest

/-- The project-creation wait loop, started with attempt counter 0. -/
def waitUntilProjectCreate (responses : List Nat) : CreateOutcome :=
  createLoopAux 0 responses

/-- Claim C5: the transport layer maps status < 300 to pass-through, 400 to
ValidationError, 401/403 to AuthError, other 4xx to ClientError and >= 500 to
ServerError; the project-creation loop treats a pass-through as created and swallows
the 400 "already exists" ValidationError as success, so a second creation for the same
key never raises. -/
theorem c5_project_create_idempotent (s : Nat) :
    (s < 300 → requestOutcome s = HttpOutcome.ok)
    ∧ requestOutcome 400 = HttpOutcome.validationError
    ∧ requestOutcome 401 = HttpOutcome.authError
    ∧ requestOutcome 403 = HttpOutcome.authError
    ∧ (400 ≤ s → s < 500 → s ≠ 400 → s ≠ 401 → s ≠ 403 →
        requestOutcome s = HttpOutcome.clientError)
    ∧ (500 ≤ s → requestOutcome s = HttpOutcome.serverError)
    ∧ waitUntilProjectCreate [201] = CreateOutcome.created
    ∧ waitUntilProjectCreate [400] = CreateOutcome.created := by
  refine ⟨?_, by decide, by decide, by decide, ?_, ?_, by decide, by decide⟩
  · intro h
    rw [requestOutcome, if_pos h]
  · intro h1 h2 h3 h4 h5
    rw [requestOutcome, if_neg (by omega), if_neg h3, if_neg (by tauto), if_pos h2]
  · intro h
    rw [requestOutcome, if_neg (by omega), if_neg (by omega), if_neg (by omega),
      if_neg (by omega)]

/-- Witness for C5 at concrete statuses 200, 404 and 503. -/
theorem c5_project_create_idempotent_witness :
    requestOutcome 200 = HttpOutcome.ok
    ∧ requestOutcome 404 = HttpOutcome.clientError
    ∧ requestOutcome 503 = HttpOutcome.serverError :=
  ⟨(c5_project_create_idempotent 200).1 (by decide),
   (c5_project_create_idempotent 404).2.2.2.2.1 (by decide) (by decide) (by decide)
     (by decide) (by decide),
   (c5_project_create_idempotent 503).2.2.2.2.2.1 (by decide)⟩

/-! ### C6 — server readiness poll (sq.py _wait_until_sonarqube_on, lines 573-591) -/

/-- `is_server_up` after one status query: the extracted `status` field compared with
"UP" (`.get("status", "DOWN")`); `none` is a query that raised (caught, leaving the
flag false). -/
def pollUp : Option String → Bool
  | some s => s == "UP"
  | none => false

/-- sq.py lines 573-591: the readiness loop `while not is_server_up or not
self.is_local_up` over successive status polls; it returns how many polls were consumed
when the loop exits, `none` when the polls are exhausted (deadline timeout).  The
`is_local_up` flag is read as a constant here (it is set before or independently of the
loop). -/
def waitOn (flag : Bool) : List (Option String) → Option Nat
  | [] => none
  | p :: rest =>
    if pollUp p && flag then some 1
    else (waitOn flag rest).map (fun n => n + 1)

/-- Claim C6: if the status poll returns UP on the Nth call and non-UP (or a transport
error) before it, the lifecycle manager reaches ready after exactly N polls and not
before; readiness additionally requires the owned-local-up flag, which the switch to
the COMMON model sets. -/
theorem c6_ready_after_n_polls (pre rest : List (Option String)) (cu : SQUser)
    (pid : String) (st : SQState)
    (hpre : ∀ q ∈ pre, pollUp q = false) :
    waitOn true (pre ++ some "UP" :: rest) = some (pre.length + 1)
    ∧ (∀ polls : List (Option String), waitOn false polls = none)
    ∧ (useCommonSonarqube cu pid st).is_local_up = true
    ∧ (useCommonSonarqube cu pid st).model = SQModel.COMMON := by
  refine ⟨?_, ?_, rfl, rfl⟩
  · induction pre with
    | nil => rfl
    | cons q pre' ih =>
      have hq : pollUp q = false := hpre q (by simp)
      have ih' := ih (fun q2 hq2 => hpre q2 (by simp [hq2]))
      have hstep : waitOn true (q :: (pre' ++ some "UP" :: rest))
          = (waitOn true (pre' ++ some "UP" :: rest)).map (fun n => n + 1) := by
        simp [waitOn, hq]
      rw [List.cons_append, hstep, ih']
      simp
  · intro polls
    induction polls with
    | nil => rfl
    | cons p ps ih =>
      simp [waitOn, ih]

/-- Witness for C6: two failing polls (a DOWN status and a raised query) followed by an
UP status reach ready after exactly three polls. -/
theorem c6_ready_after_n_polls_witness :
    waitOn true ([some "DOWN", none] ++ some "UP" :: []) = some 3 :=
  (c6_ready_after_n_polls [some "DOWN", none] [] ⟨"u", 1, "", "n", "p", "k"⟩ "1"
    ⟨SQModel.LOCAL, "u", 1, "", "n", "p", "k", false⟩ (by decide)).1

/-! ### C7 — fatal error path (sq.py _raise_error, lines 325-333) -/

/-- Claim C7: every fatal error raised through `_raise_error` attempts server teardown
if and only if the current server model is LOCAL (never when COMMON), and the raised
exception type follows the error class — CompileTaskError for "compile", ConfigError
for "config", AnalyzeTaskError otherwise — each carrying the human-readable message. -/
theorem c7_teardown_iff_local (st : SQState) (msg : String) (t : Option String) :
    ((raiseError st msg t).1 = true ↔ st.model = SQModel.LOCAL)
    ∧ (st.model = SQModel.COMMON → (raiseError st msg t).1 = false)
    ∧ (raiseError st msg (some "compile")).2 = TaskExc.compileTaskError msg
    ∧ (raiseError st msg (some "config")).2 = TaskExc.configError msg
    ∧ (∀ t2 : Option String, t2 ≠ some "compile" → t2 ≠ some "config" →
        (raiseError st msg t2).2 = TaskExc.analyzeTaskError msg)
    ∧ excMsg (raiseError st msg t).2 = msg := by
  refine ⟨?_, ?_, by rfl, by rfl, ?_, ?_⟩
  · simp only [raiseError]
    constructor
    · intro h
      by_cases hm : st.model = SQModel.LOCAL
      · exact hm
      · rw [if_neg hm] at h
        cases h
    · intro h
      rw [if_pos h]
  · intro h
    simp only [raiseError]
    rw [if_neg (by rw [h]; intro hc; cases hc)]
  · intro t2 h1 h2
    cases t2 with
    | none => rfl
    | some s =>
      have hs1 : s ≠ "compile" := by intro h; exact h1 (by rw [h])
      have hs2 : s ≠ "config" := by intro h; exact h2 (by rw [h])
      simp only [raiseError]
      rw [if_neg hs1, if_neg hs2]
  · simp only [raiseError]
    cases t with
    | none => rfl
    | some s =>
      dsimp only
      by_cases hs1 : s = "compile"
      · rw [if_pos hs1]; rfl
      · rw [if_neg hs1]
        by_cases hs2 : s = "config"
        · rw [if_pos hs2]; rfl
        · rw [if_neg hs2]; rfl

/-- A COMMON-model endpoint state used as a concrete input. -/
def commonStateEx : SQState :=
  ⟨SQModel.COMMON, "http://common.example", 9000, "/sq", "tok", "", "CommonKey_1", true⟩

/-- Witness for C7: at a COMMON-model state no teardown is attempted, and an "analyze"
error raises AnalyzeTaskError with its message. -/
theorem c7_teardown_iff_local_witness :
    (raiseError commonStateEx "m" none).1 = false
    ∧ (raiseError commonStateEx "m" (some "analyze")).2 = TaskExc.analyzeTaskError "m" :=
  ⟨(c7_teardown_iff_local commonStateEx "m" none).2.1 (by decide),
   (c7_teardown_iff_local commonStateEx "m" none).2.2.2.2.1 (some "analyze")
     (by decide) (by decide)⟩

/-! ### C8 — server-model transitions (sq.py _use_common_sonarqube lines 427-438,
_start_sonarqube lines 504-531) -/

/-- The fixed set of known-fatal startup substrings watched for in the local server's
log stream (sq.py lines 511-525). -/
def fatalSignatures : List String :=
  [ "app[][o.s.a.SchedulerImpl] SonarQube is stopped"
  , "错误: 找不到或无法加载主类 org.sonar.application.App"
  , "sudo: pam_open_session: Permission denied"
  , "sudo: pam_open_session：拒绝权限"
  , "java.lang.IllegalStateException: SonarQube requires Java 11 to run"
  , "sudo: sorry, you must have a tty to run sudo"
  , "sudo：抱歉，您必须拥有一个终端来执行 sudo"
  , "org.elasticsearch.cluster.block.ClusterBlockException: blocked by: [FORBIDDEN/12/index read-only / allow delete (api)];"
  , "sudoers.so must be only be writable by owner"
  , "fatal error, unable to load plugins" ]

/-- sq.py lines 511-525: `line.find(sig) != -1` for any fatal signature. -/
def isFatalLine (line : String) : Bool :=
  fatalSignatures.any (fun sig => containsSub sig.toList line.toList)

/-- The run events that can touch the server model: the explicit shared-mode request of
scan_proj (guarded by SQ_COMMON_USER), one log line delivered to the _start_sonarqube
callback, or any other operation (none of which assigns the model). -/
inductive RunEv
  | explicitCommon
  | logLine (line : String)
  | otherOp
deriving DecidableEq

/-- One event step over (state, number of executed endpoint switches): _start_sonarqube
(sq.py lines 504-531) calls _use_common_sonarqube on every fatal line when a common
user is configured, and sets the owned-local-up flag on the readiness marker; the
explicit request does the same switch once at scan start. -/
def stepCount (cfg : Option SQUser) (pid : String) (sn : SQState × Nat) (e : RunEv) :
    SQState × Nat :=
  match e with
  | RunEv.explicitCommon =>
    match cfg with
    | some cu => (useCommonSonarqube cu pid sn.1, sn.2 + 1)
    | none => sn
  | RunEv.logLine l =>
    if isFatalLine l then
      match cfg with
      | some cu => (useCommonSonarqube cu pid sn.1, sn.2 + 1)
      | none => sn
    else if containsSub ("SonarQube is up".toList) l.toList then
      ({ sn.1 with is_local_up := true }, sn.2)
    else sn
  | RunEv.otherOp => sn

/-- Run a whole event trace, counting how many times the endpoint switch
(_use_common_sonarqube) executes. -/
def runEvents (cfg : Option SQUser) (pid : String) (st : SQState) (evs : List RunEv) :
    SQState × Nat :=
  evs.foldl (stepCount cfg pid) (st, 0)

/-- Number of steps of a trace at which the model actually transitions LOCAL→COMMON. -/
def transCount (cfg : Option SQUser) (pid : String) : SQState → List RunEv → Nat
  | _, [] => 0
  | st, e :: rest =>
    (if st.model = SQModel.LOCAL ∧ ((stepCount cfg pid (st, 0) e).1).model = SQModel.COMMON
      then 1 else 0)
    + transCount cfg pid ((stepCount cfg pid (st, 0) e).1) rest

def cuEx : SQUser := ⟨"http://common.example", 9000, "/sq", "tok", "", "CommonKey"⟩

def localStateEx : SQState :=
  ⟨SQModel.LOCAL, "http://localhost", 9000, "", "admin", "admin", "LocalKey", false⟩

def fatalLineEx : String :=
  "2022.01.01 01:02:03 WARN  app[][o.s.a.SchedulerImpl] SonarQube is stopped"

/-- Counterexample to C8 as stated: with a common server configured, a local log stream
carrying two fatal-signature lines executes the switch to the common endpoint twice in
one run, not at most once. -/
theorem c8_one_way_counterexample :
    (runEvents (some cuEx) "1" localStateEx
        [RunEv.logLine fatalLineEx, RunEv.logLine fatalLineEx]).2 = 2
    ∧ ¬ (runEvents (some cuEx) "1" localStateEx
        [RunEv.logLine fatalLineEx, RunEv.logLine fatalLineEx]).2 ≤ 1 := by
  decide

/-- Claim C8 (amended): the server-model transition LOCAL→COMMON is one-way — once the
model is COMMON no event ever sets it back to LOCAL — and the model transition happens
at most once per run; the endpoint-switch routine itself may execute more than once
(once per fatal log line), but it is idempotent, so executions after the first leave
the endpoint state unchanged. -/
theorem c8_one_way_amended (cfg : Option SQUser) (pid : String) :
    (∀ (e : RunEv) (st : SQState) (n : Nat), st.model = SQModel.COMMON →
      ((stepCount cfg pid (st, n) e).1).model = SQModel.COMMON)
    ∧ (∀ (st : SQState) (evs : List RunEv), transCount cfg pid st evs ≤ 1)
    ∧ (∀ (cu : SQUser) (st : SQState),
        useCommonSonarqube cu pid (useCommonSonarqube cu pid st)
          = useCommonSonarqube cu pid st) := by
  have hmono : ∀ (e : RunEv) (st : SQState) (n : Nat), st.model = SQModel.COMMON →
      ((stepCount cfg pid (st, n) e).1).model = SQModel.COMMON := by
    intro e st n h
    cases e with
    | explicitCommon =>
      cases cfg with
      | some cu => rfl
      | none => exact h
    | logLine l =>
      simp only [stepCount]
      by_cases hf : isFatalLine l = true
      · rw [if_pos hf]
        cases cfg with
        | some cu => rfl
        | none => exact h
      · rw [if_neg hf]
        by_cases hu : containsSub ("SonarQube is up".toList) l.toList = true
        · rw [if_pos hu]
          exact h
        · rw [if_neg hu]
          exact h
    | otherOp => exact h
  have hzero : ∀ (evs : List RunEv) (st : SQState), st.model = SQModel.COMMON →
      transCount cfg pid st evs = 0 := by
    intro evs
    induction evs with
    | nil => intro st _; rfl
    | cons e rest ih =>
      intro st h
      rw [transCount]
      rw [if_neg (by intro hc; rw [h] at hc; exact absurd hc.1 (by decide))]
      rw [ih _ (hmono e st 0 h)]
  refine ⟨hmono, ?_, fun cu st => rfl⟩
  intro st evs
  induction evs generalizing st with
  | nil => exact Nat.zero_le 1
  | cons e rest ih =>
    rw [transCount]
    by_cases hm : st.model = SQModel.LOCAL
    · by_cases hm2 : ((stepCount cfg pid (st, 0) e).1).model = SQModel.COMMON
      · rw [if_pos ⟨hm, hm2⟩, hzero _ _ hm2]
      · rw [if_neg (by intro hc; exact hm2 hc.2)]
        have := ih ((stepCount cfg pid (st, 0) e).1)
        omega
    · have hcommon : st.model = SQModel.COMMON := by
        cases hsm : st.model
        · exact absurd hsm hm
        · rfl
      rw [if_neg (by intro hc; exact hm hc.1)]
      rw [hzero _ _ (hmono e st 0 hcommon)]
      omega

/-- Witness for C8 at a concrete configuration, COMMON state and one-event trace. -/
theorem c8_one_way_amended_witness :
    ((stepCount (some cuEx) "1" (commonStateEx, 0) RunEv.otherOp).1).model = SQModel.COMMON
    ∧ transCount (some cuEx) "1" localStateEx [RunEv.logLine fatalLineEx] ≤ 1 :=
  ⟨(c8_one_way_amended (some cuEx) "1").1 RunEv.otherOp commonStateEx 0 (by decide),
   (c8_one_way_amended (some cuEx) "1").2.1 localStateEx [RunEv.logLine fatalLineEx]⟩

/-! ### C9 — cognitive complexity summary (sq.py scan_proj, lines 248-269) -/

/-- sq.py line 257: `[token for token in msg.split() if token.isdigit()]`. -/
def digitTokens (msg : String) : List (List Char) :=
  (pyWordsAcc [] msg.toList).filter isDigitTok

/-- sq.py lines 253-262: one iteration of the aggregation loop over the accumulator
(cogn_complex_cnt, cogn_complex_sum, cogn_complex_over): skip issues whose rule does
not end with ":S3776" or whose message holds fewer than two integer tokens; otherwise
count it, add the first token, and add first minus second. -/
def cognStep (acc : Nat × Nat × Int) (f : Finding) : Nat × Nat × Int :=
  if strEndsWith f.rule ":S3776" then
    match digitTokens f.msg with
    | t0 :: t1 :: _ =>
      (acc.1 + 1, acc.2.1 + tokVal t0, acc.2.2 + ((tokVal t0 : Int) - (tokVal t1 : Int)))
    | _ => acc
  else acc

structure CognSummary where
  count : Nat
  average : ℚ
  overSum : Int
deriving DecidableEq

/-- sq.py lines 248-269: the summary is produced only for a full (non-incremental)
scan; count, average (exact rational value of the float division, 0 when the count is
0) and total excess come from the loop accumulators. -/
def computeCognSummary (incr_scan : Bool) (issues : List Finding) : Option CognSummary :=
  if incr_scan then none
  else
    some { count := (issues.foldl cognStep (0, 0, 0)).1
         , average := if (issues.foldl cognStep (0, 0, 0)).1 = 0 then 0
             else ((issues.foldl cognStep (0, 0, 0)).2.1 : ℚ)
               / (((issues.foldl cognStep (0, 0, 0)).1 : Nat) : ℚ)
         , overSum := (issues.foldl cognStep (0, 0, 0)).2.2 }

/-- The issues the loop aggregates over: rule key ends with ":S3776" and the message
holds at least two integer tokens. -/
def isCognIssue (f : Finding) : Bool :=
  strEndsWith f.rule ":S3776" && decide (2 ≤ (digitTokens f.msg).length)

/-- First integer token of an issue message (int(info[0])). -/
def tokFirst (f : Finding) : Nat :=
  match digitTokens f.msg with
  | t0 :: _ => tokVal t0
  | [] => 0

/-- First minus second integer token of an issue message (int(info[0]) - int(info[1])). -/
def tokExcess (f : Finding) : Int :=
  match digitTokens f.msg with
  | t0 :: t1 :: _ => (tokVal t0 : Int) - (tokVal t1 : Int)
  | _ => 0

lemma cognStep_comp (a : Nat × Nat × Int) (f : Finding) :
    (cognStep a f).1 = a.1 + (if isCognIssue f then 1 else 0)
    ∧ (cognStep a f).2.1 = a.2.1 + (if isCognIssue f then tokFirst f else 0)
    ∧ (cognStep a f).2.2 = a.2.2 + (if isCognIssue f then tokExcess f else 0) := by
  by_cases hrule : strEndsWith f.rule ":S3776" = true
  · cases htok : digitTokens f.msg with
    | nil =>
      have hcogn : isCognIssue f = false := by
        simp [isCognIssue, htok]
      simp [cognStep, hrule, htok, hcogn]
    | cons t0 ts =>
      cases ts with
      | nil =>
        have hcogn : isCognIssue f = false := by
          simp [isCognIssue, htok]
        simp [cognStep, hrule, htok, hcogn]
      | cons t1 ts2 =>
        have hcogn : isCognIssue f = true := by
          simp [isCognIssue, hrule, htok]
        simp [cognStep, hrule, htok, hcogn, tokFirst, tokExcess]
  · have hcogn : isCognIssue f = false := by
      simp [isCognIssue, hrule]
    simp [cognStep, hrule, hcogn]

lemma cogn_foldl_spec (issues : List Finding) : ∀ a : Nat × Nat × Int,
    issues.foldl cognStep a
      = (a.1 + (issues.filter isCognIssue).length,
         a.2.1 + ((issues.filter isCognIssue).map tokFirst).sum,
         a.2.2 + ((issues.filter isCognIssue).map tokExcess).sum) := by
  induction issues with
  | nil => intro a; simp
  | cons f rest ih =>
    intro a
    rw [List.foldl_cons, ih (cognStep a f)]
    obtain ⟨h1, h2, h3⟩ := cognStep_comp a f
    by_cases hc : isCognIssue f = true
    · simp only [List.filter_cons, hc, if_true, List.length_cons, List.map_cons,
        List.sum_cons, h1, h2, h3, Prod.mk.injEq]
      refine ⟨by omega, by omega, by omega⟩
    · have hc' : isCognIssue f = false := by simpa using hc
      simp only [List.filter_cons, hc', Bool.false_eq_true, if_false, h1, h2, h3,
        Prod.mk.injEq]
      refine ⟨by omega, by omega, by omega⟩

/-- Claim C9: the cognitive-complexity summary is computed iff the run is a full
(non-incremental) scan; it aggregates exactly the issues whose rule ends with ":S3776"
and whose message holds at least two integer tokens — their count, the average of the
first token (0 when the count is 0), and the total of first minus second token — and is
zero-valued when no such issue exists. -/
theorem c9_cognitive_summary (incr : Bool) (issues : List Finding) :
    ((computeCognSummary incr issues).isSome ↔ incr = false)
    ∧ (∀ s, computeCognSummary incr issues = some s →
        s.count = (issues.filter isCognIssue).length
        ∧ s.overSum = ((issues.filter isCognIssue).map tokExcess).sum
        ∧ s.average = (if (issues.filter isCognIssue).length = 0 then 0
            else (((issues.filter isCognIssue).map tokFirst).sum : ℚ)
              / (((issues.filter isCognIssue).length : Nat) : ℚ))
        ∧ ((issues.filter isCognIssue).length = 0 → s = ⟨0, 0, 0⟩)) := by
  cases incr with
  | true =>
    refine ⟨by simp [computeCognSummary], ?_⟩
    intro s h
    simp [computeCognSummary] at h
  | false =>
    refine ⟨by simp [computeCognSummary], ?_⟩
    intro s h
    simp only [computeCognSummary, Bool.false_eq_true, if_false, Option.some.injEq] at h
    have hspec := cogn_foldl_spec issues (0, 0, 0)
    rw [hspec] at h
    dsimp only at h
    simp only [Nat.zero_add, Int.zero_add] at h
    subst h
    refine ⟨by simp, by simp, by simp, ?_⟩
    intro hlen
    have hnil : issues.filter isCognIssue = [] := List.length_eq_zero.mp hlen
    simp [hlen, hnil]

/-- The single cognitive-complexity issue used as a concrete input. -/
def cognIssueEx : Finding :=
  { path := "a.py", rule := "python:S3776",
    msg := "Refactor this function to reduce its Cognitive Complexity from 24 to the 15 allowed.",
    line := 3, column := 0, refs := [] }

/-- Witness for C9 at a concrete full scan over one cognitive-complexity issue. -/
theorem c9_cognitive_summary_witness :
    ((computeCognSummary false [cognIssueEx]).isSome ↔ false = false)
    ∧ (⟨1, 24, 9⟩ : CognSummary).count = ([cognIssueEx].filter isCognIssue).length := by
  have h1 : (cognStep (0, 0, 0) cognIssueEx).1 = 1 := by decide
  have h2 : (cognStep (0, 0, 0) cognIssueEx).2.1 = 24 := by decide
  have h3 : (cognStep (0, 0, 0) cognIssueEx).2.2 = 9 := by decide
  have hval : computeCognSummary false [cognIssueEx] = some ⟨1, 24, 9⟩ := by
    simp only [computeCognSummary, List.foldl, Bool.false_eq_true, if_false,
      Option.some.injEq, CognSummary.mk.injEq]
    rw [h1, h2, h3]
    exact ⟨rfl, by norm_num, rfl⟩
  exact ⟨(c9_cognitive_summary false [cognIssueEx]).1,
    ((c9_cognitive_summary false [cognIssueEx]).2 ⟨1, 24, 9⟩ hval).1⟩
